import Mathlib

/-
  Verification of the modbus-proxy bridge (tiagocoutinho/modbus-proxy,
  module `modbus_proxy.py`, version 0.6.8) against its specification.

  The Python module is shallowly embedded: byte streams are lists of
  naturals below 256, `reader.readexactly` becomes a pure function on a
  stream returning `Option`, the framers (`TCPProtocol.read_frame`,
  `RTUProtocol.read_request_frame`, `RTUProtocol.read_response_frame`)
  become stream transformers, the retry loop of
  `Bridge.write_read_response_frame` becomes a recursion over the attempt
  budget with an explicit connection state, and the `asyncio.Lock`
  discipline becomes a labelled transition system over task program
  counters.
-/

set_option maxRecDepth 8192

namespace ModbusProxy

/-- A byte, modelled as a natural number (values of interest are < 256). -/
abbrev Byte := Nat

/-- `reader.readexactly(n)`: return exactly `n` bytes from the front of the
stream together with the remaining stream, or fail (Python raises
`asyncio.IncompleteReadError` when the peer closes before `n` bytes). -/
def readExactly (n : Nat) (s : List Byte) : Option (List Byte × List Byte) :=
  if n ≤ s.length then some (s.take n, s.drop n) else none

/-- `int.from_bytes(header[4:], "big")` on the two length bytes of the MBAP
header: big-endian 16-bit value. -/
def beWord (hi lo : Byte) : Nat := 256 * hi + lo

/-- `TCPProtocol.read_frame`: read the 6-byte MBAP prefix, interpret bytes
4-5 as the big-endian length, read that many further bytes, and return the
concatenation (`header + await self.transport.read_exactly(size)`). -/
def TCPProtocol.read_frame (s : List Byte) : Option (List Byte × List Byte) :=
  match readExactly 6 s with
  | none => none
  | some (header, s1) =>
    match readExactly (beWord (header.getD 4 0) (header.getD 5 0)) s1 with
    | none => none
    | some (body, s2) => some (header ++ body, s2)

/-- `read_request_frame = read_frame` in `TCPProtocol`. -/
def TCPProtocol.read_request_frame : List Byte → Option (List Byte × List Byte) :=
  TCPProtocol.read_frame

/-- `read_response_frame = read_frame` in `TCPProtocol`. -/
def TCPProtocol.read_response_frame : List Byte → Option (List Byte × List Byte) :=
  TCPProtocol.read_frame

/-! ## RTU framing (`RTUProtocol`) -/

/-- Modbus function code constants from the source. -/
def READ_COILS : Nat := 1

def READ_DISCRETE_INPUTS : Nat := 2

def READ_HOLDING_REGISTERS : Nat := 3

def READ_INPUT_REGISTERS : Nat := 4

def WRITE_SINGLE_COIL : Nat := 5

def WRITE_SINGLE_REGISTER : Nat := 6

def WRITE_MULTIPLE_COILS : Nat := 15

def WRITE_MULTIPLE_REGISTERS : Nat := 16

def GENERAL_FUNCS : List Nat :=
  [READ_COILS, READ_DISCRETE_INPUTS, READ_HOLDING_REGISTERS, READ_INPUT_REGISTERS,
   WRITE_SINGLE_COIL, WRITE_SINGLE_REGISTER, WRITE_MULTIPLE_COILS, WRITE_MULTIPLE_REGISTERS]

def RTUProtocol.REQ_DYNAMIC : List Nat := [WRITE_MULTIPLE_COILS, WRITE_MULTIPLE_REGISTERS]

/-- `REQ_STATIC = GENERAL_FUNCS - REQ_DYNAMIC` in the source; spelt out as a
literal here, with `REQ_STATIC_eq_sdiff` checking the set difference. -/
def RTUProtocol.REQ_STATIC : List Nat :=
  [READ_COILS, READ_DISCRETE_INPUTS, READ_HOLDING_REGISTERS, READ_INPUT_REGISTERS,
   WRITE_SINGLE_COIL, WRITE_SINGLE_REGISTER]

def RTUProtocol.RESP_STATIC : List Nat :=
  [WRITE_SINGLE_COIL, WRITE_SINGLE_REGISTER, WRITE_MULTIPLE_COILS, WRITE_MULTIPLE_REGISTERS]

/-- `RESP_DYNAMIC = GENERAL_FUNCS - RESP_STATIC` in the source. -/
def RTUProtocol.RESP_DYNAMIC : List Nat :=
  [READ_COILS, READ_DISCRETE_INPUTS, READ_HOLDING_REGISTERS, READ_INPUT_REGISTERS]

/-- `RTUProtocol.read_request_frame`: read 7 bytes, unpack
`>BBHHB` as `address, func, starting_address, value, byte_count`, then read
the remaining bytes depending on the function code (`1` for the static
functions, `byte_count + 2` for the dynamic ones, `1` plus a logged warning
for unknown codes), and return the concatenation. -/
def RTUProtocol.read_request_frame (s : List Byte) : Option (List Byte × List Byte) :=
  match readExactly 7 s with
  | none => none
  | some (payload, s1) =>
    let func := payload.getD 1 0
    let byte_count := payload.getD 6 0
    let n :=
      if func ∈ RTUProtocol.REQ_STATIC then 1            -- second byte of CRC
      else if func ∈ RTUProtocol.REQ_DYNAMIC then byte_count + 2  -- CRC
      else 1   -- second byte of CRC ? (the source logs a warning here)
    match readExactly n s1 with
    | none => none
    | some (tail, s2) => some (payload ++ tail, s2)

/-- `RTUProtocol.read_response_frame`: read 2 bytes (`address, func`), fix
`byte_count` by the function code (4 for the static write responses, one
further length byte for the dynamic read responses, 1 for an exception
response with bit `0x80` set, 0 plus a logged warning otherwise), then read
`byte_count + 2` more bytes (the CRC) and return the concatenation.  The
single trailing `read_exactly(byte_count + 2)` of the source is inlined
into each branch with the branch's `byte_count`. -/
def RTUProtocol.read_response_frame (s : List Byte) : Option (List Byte × List Byte) :=
  match readExactly 2 s with
  | none => none
  | some (payload, s1) =>
    let func := payload.getD 1 0
    if func ∈ RTUProtocol.RESP_STATIC then
      match readExactly (4 + 2) s1 with
      | none => none
      | some (tail, s2) => some (payload ++ tail, s2)
    else if func ∈ RTUProtocol.RESP_DYNAMIC then
      match readExactly 1 s1 with
      | none => none
      | some (endB, s2) =>
        match readExactly (endB.getD 0 0 + 2) s2 with
        | none => none
        | some (tail, s3) => some ((payload ++ endB) ++ tail, s3)
    else if func &&& 0x80 ≠ 0 then   -- an error
      match readExactly (1 + 2) s1 with
      | none => none
      | some (tail, s2) => some (payload ++ tail, s2)
    else   -- unknown func: the source logs a warning
      match readExactly (0 + 2) s1 with
      | none => none
      | some (tail, s2) => some (payload ++ tail, s2)

/-! ## URL parsing (`parse_url`, `transport_protocol_for_url`) -/

/-- Split a character list at the first occurrence of `"://"`, returning
the part before and the part after; `none` when `"://"` does not occur.
This models both the membership test `"://" in url` and `urlparse`'s
extraction of the scheme (the text before the first `"://"`). -/
def splitSep : List Char → Option (List Char × List Char)
  | ':' :: '/' :: '/' :: rest => some ([], rest)
  | c :: rest => (splitSep rest).map fun p => (c :: p.1, p.2)
  | [] => none

/-- `"://" in url`. -/
def hasSep (url : String) : Bool := (splitSep url.data).isSome

/-- `parse_url`'s normalisation: `if "://" not in url: url = f"tcp://{url}"`.
(The subsequent empty-hostname substitution inserts a host character after
the separator and is irrelevant to the scheme and to the port segment.) -/
def parse_url_str (url : String) : String :=
  if hasSep url then url else "tcp://" ++ url

/-- `urlparse(...).scheme` of the normalised URL: the text before the first
`"://"` (already lower-case in every use here). -/
def schemeOf (url : String) : String :=
  match splitSep (parse_url_str url).data with
  | none => ""
  | some (pre, _) => String.mk pre

/-- Split a character list at the last occurrence of `c`, as Python's
`str.rsplit(c, 1)`; `none` when `c` does not occur. -/
def rsplit1 (c : Char) : List Char → Option (List Char × List Char)
  | [] => none
  | a :: rest =>
    match rsplit1 c rest with
    | some p => some (a :: p.1, p.2)
    | none => if a = c then some ([], rest) else none

/-- `transport_protocol_for_url`: empty scheme counts as `tcp`; a scheme
containing `+` is `rsplit` at the last `+` into `(transport, protocol)`;
the bare `tcp` scheme gives `(tcp, tcp)`; any other scheme `s` gives
`(s, rtu)`. -/
def transport_protocol_for_url (url : String) : String × String :=
  let scheme0 := schemeOf url
  let scheme := if scheme0 = "" then "tcp" else scheme0
  match rsplit1 '+' scheme.data with
  | some p => (String.mk p.1, String.mk p.2)
  | none => if scheme = "tcp" then ("tcp", "tcp") else (scheme, "rtu")

/-! ## Listen port (`Bridge.__init__`) -/

/-- Split a character list at the first occurrence of `c` (Python's
`str.partition`); `none` when `c` does not occur. -/
def lsplit1 (c : Char) : List Char → Option (List Char × List Char)
  | [] => none
  | a :: rest =>
    if a = c then some ([], rest)
    else (lsplit1 c rest).map fun p => (a :: p.1, p.2)

/-- The port text of `urlparse(...)._hostinfo` for the normalised bind
URL: the netloc is the text between `"://"` and the next `/`, `?` or `#`;
user info up to the last `@` is dropped (`rpartition`); when a `[` is
present (bracketed IPv6 host) the port text follows the first `:` after
the first `]`, otherwise it follows the FIRST `:` of the hostinfo
(CPython partitions, it does not rpartition); an absent or empty port
text means no port.  (The source's empty-hostname substitution inserts
the host character `0` directly after `"://"` and never touches the port
text.) -/
def portText (bind : String) : Option (List Char) :=
  match splitSep (parse_url_str bind).data with
  | none => none
  | some (_, rest) =>
    let netloc := rest.takeWhile fun c => !(c == '/') && !(c == '?') && !(c == '#')
    let hostinfo :=
      match rsplit1 '@' netloc with
      | some p => p.2
      | none => netloc
    let portStr :=
      match lsplit1 '[' hostinfo with
      | some p =>
        (match lsplit1 ']' p.2 with
         | some q =>
           (match lsplit1 ':' q.2 with
            | some r => r.2
            | none => [])
         | none => [])
      | none =>
        (match lsplit1 ':' hostinfo with
         | some q => q.2
         | none => [])
    if portStr = [] then none else some portStr

/-- `urlparse(...).port`: no port text gives `None`; otherwise the text
must pass `port.isdigit() and port.isascii()` — nonempty ASCII digits
only, which `Char.isDigit` captures exactly (any sign, space, underscore
or non-ASCII digit raises `ValueError`) — and the decimal value must lie
in `0..65535`, else `ValueError: Port out of range 0-65535`.  A raise is
modelled as `Except.error`; the nonemptiness of the text is guaranteed by
`portText`. -/
def portOf (bind : String) : Except String (Option Nat) :=
  match portText bind with
  | none => Except.ok none
  | some s =>
    if s.all (fun c => c.isDigit) then
      let v := s.foldl (fun n c => 10 * n + (c.toNat - '0'.toNat)) 0
      if v ≤ 65535 then Except.ok (some v)
      else Except.error "ValueError: Port out of range 0-65535"
    else Except.error "ValueError: Port could not be cast to integer"

/-- `Bridge.__init__`: evaluating `bind.port` may raise `ValueError`, in
which case construction fails; otherwise
`self.port = 502 if bind.port is None else bind.port`. -/
def Bridge.port (bind : String) : Except String Nat :=
  match portOf bind with
  | Except.error e => Except.error e
  | Except.ok none => Except.ok 502
  | Except.ok (some p) => Except.ok p

/-! ## `Bridge.address` and `Bridge.start` -/

/-- A bound listening socket; `sockname` is what `getsockname()` returns. -/
structure Socket where
  sockname : String

/-- The asyncio server object held in `Bridge.server`. -/
structure Server where
  sockets : List Socket

/-- The `Bridge` state relevant to `address`: `__init__` sets
`self.server = None`; `start()` sets it to the server returned by
`asyncio.start_server` (which has at least one bound socket). -/
structure BridgeState where
  server : Option Server

/-- `Bridge.__init__`: `self.server = None`. -/
def Bridge.initState : BridgeState := { server := none }

/-- `Bridge.start`: `self.server = await asyncio.start_server(...)`. -/
def Bridge.start (_ : BridgeState) (srv : Server) : BridgeState := { server := some srv }

/-- The `address` property: `if self.server is not None: return
self.server.sockets[0].getsockname()` — `None` falls out of the method
otherwise.  Indexing `sockets[0]` on an empty list would raise
`IndexError`; that outcome is modelled as `Except.error`. -/
def Bridge.address (b : BridgeState) : Except String (Option String) :=
  match b.server with
  | none => Except.ok none
  | some srv =>
    match srv.sockets with
    | [] => Except.error "IndexError"
    | sock :: _ => Except.ok (some sock.sockname)

/-- `server.close()` followed by `await server.wait_closed()`: a closed
asyncio server reports an empty `sockets` tuple. -/
def Server.close (_ : Server) : Server := { sockets := [] }

/-- `Bridge.stop`: `if self.server is not None: self.server.close(); await
self.server.wait_closed()` — note `self.server` keeps pointing at the
closed, now socketless server object. -/
def Bridge.stop (b : BridgeState) : BridgeState :=
  match b.server with
  | none => b
  | some srv => { server := some srv.close }

/-! ## The retry loop of `Bridge.write_read_response_frame` -/

/-- The upstream connection state: `self.is_open` false or true. -/
inductive ConnState
  | closed
  | opened
deriving DecidableEq

/-- Outcomes of the suspending operations inside the `try` block at
iteration `i` of the retry loop: `connect i` is `await self.open()` (run
only when `not self.is_open`), and `act i` is
`self.protocol.write_read_response_frame(request_frame)` under
`asyncio.wait_for` (a timeout being one more way to raise). -/
structure ExchangeEnv (F E : Type) where
  connect : Nat → Except E Unit
  act : Nat → Except E F

/-- One `try` body: `if not self.is_open: await self.open()`, then the
write/read; any exception escapes to the `except` clause. -/
def tryBody {F E : Type} (env : ExchangeEnv F E) (i : Nat) (st : ConnState) : Except E F :=
  match (if st = ConnState.closed then env.connect i else Except.ok ()) with
  | Except.error e => Except.error e
  | Except.ok _ => env.act i

/-- The value a Python caller sees: a frame, a propagated exception, or the
implicit `None` that falls out when the `for` loop ends without returning
(possible only with a zero attempt budget). -/
inductive PyResult (F E : Type)
  | frame (f : F)
  | raised (e : E)
  | noneResult

/-- The `for i in range(attempts)` loop of `Bridge.write_read_response_frame`,
unrolled from iteration `i` with `remaining` iterations left.  On success
the link stays open and the frame is returned; on an exception the link is
closed (`await self.close()`), the exception is re-raised when
`i + 1 == attempts` (i.e. no iteration remains), and otherwise the next
iteration starts — from `ConnState.closed`, hence through `connect`. -/
def writeReadFrom {F E : Type} (env : ExchangeEnv F E) :
    Nat → Nat → ConnState → PyResult F E × ConnState
  | 0, _, st => (PyResult.noneResult, st)
  | remaining + 1, i, st =>
    match tryBody env i st with
    | Except.ok f => (PyResult.frame f, ConnState.opened)
    | Except.error e =>
      if remaining = 0 then (PyResult.raised e, ConnState.closed)
      else writeReadFrom env remaining (i + 1) ConnState.closed

/-- `Bridge.write_read_response_frame(request_frame, attempts=2)` with the
default budget of 2 attempts (the body runs under `async with self.lock`,
which the transition system below accounts for). -/
def Bridge.write_read_response_frame {F E : Type} (env : ExchangeEnv F E) (st : ConnState) :
    PyResult F E × ConnState :=
  writeReadFrom env 2 0 st

/-- A concrete exchange environment whose first connect attempt is refused
and whose second attempt succeeds with frame `42`. -/
def retryEnvExample : ExchangeEnv Nat String :=
  { connect := fun i => if i = 0 then Except.error "refused" else Except.ok ()
    act := fun _ => Except.ok 42 }

/-! ## Transports with a write log, `Bridge.handle_client_message`,
`Bridge.handle_client` -/

/-- A byte-oriented duplex link: `stream` is what remains to be read from
the peer, `written` logs every byte handed to `writer.write`. -/
structure Transport where
  stream : List Byte
  written : List Byte
deriving DecidableEq

/-- `TCP.write` (used by `BaseProtocol.write_frame`): the bytes go out on
the wire unchanged. -/
def Transport.write (t : Transport) (data : List Byte) : Transport :=
  { t with written := t.written ++ data }

/-- The protocol class built by `modbus_for_url` (`TCPProtocol` or
`RTUProtocol`). -/
inductive ProtocolKind
  | tcp
  | rtu
deriving DecidableEq

def protoReq : ProtocolKind → List Byte → Option (List Byte × List Byte)
  | ProtocolKind.tcp => TCPProtocol.read_request_frame
  | ProtocolKind.rtu => RTUProtocol.read_request_frame

def protoResp : ProtocolKind → List Byte → Option (List Byte × List Byte)
  | ProtocolKind.tcp => TCPProtocol.read_response_frame
  | ProtocolKind.rtu => RTUProtocol.read_response_frame

/-- Run a stream-level framer on a transport: it consumes from `stream`
and leaves `written` untouched. -/
def liftRead (f : List Byte → Option (List Byte × List Byte)) (t : Transport) :
    Option (List Byte × Transport) :=
  (f t.stream).map fun p => (p.1, { t with stream := p.2 })

def read_request_frameT (k : ProtocolKind) : Transport → Option (List Byte × Transport) :=
  liftRead (protoReq k)

def read_response_frameT (k : ProtocolKind) : Transport → Option (List Byte × Transport) :=
  liftRead (protoResp k)

/-- `BaseProtocol.write_read_response_frame`: `await
self.write_frame(request_frame)` then `await self.read_response_frame()`.
This is what a successful pass through `Bridge.write_read_response_frame`
runs under the lock. -/
def BaseProtocol.write_read_response_frame (k : ProtocolKind) (t : Transport)
    (request_frame : List Byte) : Option (List Byte × Transport) :=
  read_response_frameT k (t.write request_frame)

/-- `Bridge.handle_client_message`: read one request frame from the client,
exchange it upstream, write the reply back to the client. -/
def Bridge.handle_client_message (kc ku : ProtocolKind) (client upstream : Transport) :
    Option (Transport × Transport) :=
  match read_request_frameT kc client with
  | none => none
  | some (request_frame, client1) =>
    match BaseProtocol.write_read_response_frame ku upstream request_frame with
    | none => none
    | some (reply, upstream1) => some (client1.write reply, upstream1)

/-- One loop iteration of `Bridge.handle_client`: the client connection is
framed by `protocol = type(self.protocol)(transport)` — the same protocol
class as the upstream, whatever the upstream scheme. -/
def Bridge.handle_client_step (ku : ProtocolKind) (client upstream : Transport) :
    Option (Transport × Transport) :=
  Bridge.handle_client_message ku ku client upstream

/-- The spec's S1 request frame. -/
def s1Request : List Byte :=
  [0x6d, 0xf5, 0x00, 0x00, 0x00, 0x06, 0x01, 0x03, 0x00, 0x01, 0x00, 0x04]

/-- The spec's S1 response frame. -/
def s1Response : List Byte :=
  [0x6d, 0xf5, 0x00, 0x00, 0x00, 0x0b, 0x01, 0x03, 0x08, 0x00, 0x01, 0x00, 0x02, 0x00,
   0x03, 0x00, 0x04]

/-! ## MBAP/RTU translation (claimed by the spec, absent from the source) -/

/-- One shift round of CRC-16-Modbus. -/
def crcRound (crc : Nat) : Nat :=
  if crc % 2 = 1 then Nat.xor (crc / 2) 0xA001 else crc / 2

/-- Eight shift rounds, one byte's worth. -/
def crcByte (crc : Nat) : Nat :=
  crcRound (crcRound (crcRound (crcRound (crcRound (crcRound (crcRound (crcRound crc)))))))

/-- Modelled from the spec: CRC-16-Modbus (initial value `0xFFFF`,
polynomial `0xA001`), the checksum the spec's §4.4 and test S6 require on
translated RTU frames; the source contains no CRC computation at all. -/
def crc16modbus (data : List Byte) : Nat :=
  data.foldl (fun crc b => crcByte (Nat.xor crc b)) 0xFFFF

/-- Modelled from the spec: the MBAP→RTU ADU translation the spec's §4.4
prescribes for a TCP client in front of an RTU device — drop the 6-byte
MBAP prefix, keep unit id and PDU, append CRC-16-Modbus low byte first.
No function of the source performs this. -/
def mbapToRtu (frame : List Byte) : List Byte :=
  let body := frame.drop 6
  body ++ [crc16modbus body % 256, crc16modbus body / 256]

/-- The spec's S6 RTU response frame. -/
def s6RtuResponse : List Byte :=
  [0x01, 0x03, 0x08, 0x00, 0x01, 0x00, 0x02, 0x00, 0x03, 0x00, 0x04, 0x0d, 0x14]

/-! ## The upstream lock (`async with self.lock` in
`Bridge.write_read_response_frame`) -/

/-- Program counter of one client task with respect to one bridge's
upstream.  The positions between `acquire` and release are exactly the
connect/write/read steps of the exchange. -/
inductive Pc
  | idle        -- before `async with self.lock` (or between client messages)
  | connecting  -- holding the lock: `await self.open()` (skipped when already open)
  | writing     -- holding the lock: `write_frame(request_frame)`
  | reading     -- holding the lock: `read_response_frame()`
  | finished    -- after the `async with` block (returned a frame or raised)
deriving DecidableEq

/-- Global state of one bridge: who holds its `asyncio.Lock`
(`self.lock`), and each client task's position. -/
structure LockSys where
  lock : Option Nat
  pc : Nat → Pc

/-- The task is in the middle of upstream I/O. -/
def inUpstream (p : Pc) : Prop :=
  p = Pc.connecting ∨ p = Pc.writing ∨ p = Pc.reading

/-- The interleaving semantics of `Bridge.write_read_response_frame` under
`asyncio`'s cooperative scheduler: lock acquisition succeeds only when the
lock is free; connect, write, read and the whole retry loop run strictly
inside the `async with self.lock` block without touching the lock; the
lock is released only on leaving the block — after the response frame has
been read (`exitReturn`), or when the exchange failed and the final
attempt re-raised (`exitRaise`). -/
inductive LockStep : LockSys → LockSys → Prop
  | acquire (s : LockSys) (t : Nat) :
      s.pc t = Pc.idle → s.lock = none →
      LockStep s ⟨some t, Function.update s.pc t Pc.connecting⟩
  | connected (s : LockSys) (t : Nat) :
      s.pc t = Pc.connecting →
      LockStep s ⟨s.lock, Function.update s.pc t Pc.writing⟩
  | wrote (s : LockSys) (t : Nat) :
      s.pc t = Pc.writing →
      LockStep s ⟨s.lock, Function.update s.pc t Pc.reading⟩
  | retry (s : LockSys) (t : Nat) (p : Pc) :
      s.pc t = p → inUpstream p →
      LockStep s ⟨s.lock, Function.update s.pc t Pc.connecting⟩
  | exitReturn (s : LockSys) (t : Nat) :
      s.pc t = Pc.reading →
      LockStep s ⟨none, Function.update s.pc t Pc.finished⟩
  | exitRaise (s : LockSys) (t : Nat) (p : Pc) :
      s.pc t = p → inUpstream p →
      LockStep s ⟨none, Function.update s.pc t Pc.finished⟩

/-- Initial state: the lock is free and every task is outside. -/
def initSys : LockSys := ⟨none, fun _ => Pc.idle⟩

inductive ReachableSys : LockSys → Prop
  | init : ReachableSys initSys
  | step {s s2 : LockSys} : ReachableSys s → LockStep s s2 → ReachableSys s2

/-- The lock invariant: any task inside upstream I/O holds the lock. -/
def lockInv (s : LockSys) : Prop := ∀ t, inUpstream (s.pc t) → s.lock = some t

/-- A concrete reachable state: task 0 acquired the free lock and is
connecting. -/
def sysOneHolder : LockSys := ⟨some 0, Function.update initSys.pc 0 Pc.connecting⟩

/-! ## Theorems -/

theorem readExactly_eq_some {n : Nat} {s bs r : List Byte} :
    readExactly n s = some (bs, r) ↔
      n ≤ s.length ∧ bs = s.take n ∧ r = s.drop n := by
  unfold readExactly
  split
  · constructor
    · intro h
      refine ⟨by assumption, ?_, ?_⟩ <;> cases h <;> rfl
    · rintro ⟨-, rfl, rfl⟩
      rfl
  · constructor
    · intro h
      cases h
    · rintro ⟨h, -, -⟩
      exact absurd h (by assumption)

theorem getD_take_of_lt {s : List Byte} {i n : Nat} (h : i < n) :
    (s.take n).getD i 0 = s.getD i 0 := by
  simp [List.getD, List.getElem?_take, h]

/-- C4. The MBAP (TCP) framer reads one frame by reading exactly 6 bytes,
interpreting bytes 4-5 as a big-endian 16-bit length, then reading exactly
`length` more bytes; the returned frame is the 6 header bytes followed by
the `length` body bytes, so its total size is `6 + length`, and the very
same procedure is used for request and for response frames. -/
theorem tcp_read_frame_spec (s frame rest : List Byte)
    (h : TCPProtocol.read_frame s = some (frame, rest)) :
    6 ≤ s.length ∧
    frame.length = 6 + beWord (s.getD 4 0) (s.getD 5 0) ∧
    frame = s.take (6 + beWord (s.getD 4 0) (s.getD 5 0)) ∧
    rest = s.drop (6 + beWord (s.getD 4 0) (s.getD 5 0)) ∧
    TCPProtocol.read_request_frame = TCPProtocol.read_frame ∧
    TCPProtocol.read_response_frame = TCPProtocol.read_frame := by
  unfold TCPProtocol.read_frame at h
  rcases h6 : readExactly 6 s with - | ⟨header, s1⟩ <;> rw [h6] at h <;> dsimp only at h
  · cases h
  rcases hb : readExactly (beWord (header.getD 4 0) (header.getD 5 0)) s1 with
    - | ⟨body, s2⟩ <;> rw [hb] at h <;> dsimp only at h
  · cases h
  obtain ⟨hlen6, rfl, rfl⟩ := readExactly_eq_some.mp h6
  obtain ⟨hlenb, rfl, rfl⟩ := readExactly_eq_some.mp hb
  cases h
  have h4 : (s.take 6).getD 4 0 = s.getD 4 0 := getD_take_of_lt (by norm_num)
  have h5 : (s.take 6).getD 5 0 = s.getD 5 0 := getD_take_of_lt (by norm_num)
  rw [h4, h5] at hlenb ⊢
  refine ⟨hlen6, ?_, ?_, ?_, rfl, rfl⟩
  · rw [List.length_drop] at hlenb
    rw [List.length_append, List.length_take, List.length_take, List.length_drop]
    omega
  · rw [List.take_add]
  · rw [List.drop_drop]

/-- Witness for C4 on the spec's S1 request frame
`6d f5 00 00 00 06 01 03 00 01 00 04`: the length field is 6 and the whole
12-byte stream is returned as one frame. -/
theorem tcp_read_frame_spec_witness :
    TCPProtocol.read_frame
        [0x6d, 0xf5, 0x00, 0x00, 0x00, 0x06, 0x01, 0x03, 0x00, 0x01, 0x00, 0x04] =
      some ([0x6d, 0xf5, 0x00, 0x00, 0x00, 0x06, 0x01, 0x03, 0x00, 0x01, 0x00, 0x04], []) ∧
    ([0x6d, 0xf5, 0x00, 0x00, 0x00, 0x06, 0x01, 0x03, 0x00, 0x01, 0x00, 0x04] : List Byte).length
      = 6 + beWord 0x00 0x06 := by
  have h := tcp_read_frame_spec
    [0x6d, 0xf5, 0x00, 0x00, 0x00, 0x06, 0x01, 0x03, 0x00, 0x01, 0x00, 0x04]
    [0x6d, 0xf5, 0x00, 0x00, 0x00, 0x06, 0x01, 0x03, 0x00, 0x01, 0x00, 0x04]
    [] (by decide)
  exact ⟨by decide, h.2.1⟩

theorem REQ_STATIC_eq_sdiff :
    RTUProtocol.REQ_STATIC =
      GENERAL_FUNCS.filter (fun f => decide (f ∉ RTUProtocol.REQ_DYNAMIC)) := by
  decide

theorem RESP_DYNAMIC_eq_sdiff :
    RTUProtocol.RESP_DYNAMIC =
      GENERAL_FUNCS.filter (fun f => decide (f ∉ RTUProtocol.RESP_STATIC)) := by
  decide

theorem getD_drop (s : List Byte) (m i : Nat) :
    (s.drop m).getD i 0 = s.getD (m + i) 0 := by
  simp [List.getD, List.getElem?_drop]

theorem length_take_of_le {s : List Byte} {L : Nat} (h : L ≤ s.length) :
    (s.take L).length = L := by
  rw [List.length_take]
  omega

/-- Core shape of every framer success: a prefix of `m` bytes followed by a
chunk of `n` bytes is the prefix of `m + n` bytes. -/
theorem chunk_shape {s : List Byte} {m n : Nat}
    (hm : m ≤ s.length) (hn : n ≤ (s.drop m).length) :
    s.take m ++ (s.drop m).take n = s.take (m + n) ∧
    (s.drop m).drop n = s.drop (m + n) ∧
    m + n ≤ s.length := by
  rw [List.length_drop] at hn
  refine ⟨(List.take_add s m n).symm, ?_, by omega⟩
  rw [List.drop_drop]

theorem req_static_dynamic_disjoint {f : Nat}
    (h1 : f ∈ RTUProtocol.REQ_STATIC) (h2 : f ∈ RTUProtocol.REQ_DYNAMIC) : False := by
  simp [RTUProtocol.REQ_STATIC, RTUProtocol.REQ_DYNAMIC, READ_COILS, READ_DISCRETE_INPUTS,
    READ_HOLDING_REGISTERS, READ_INPUT_REGISTERS, WRITE_SINGLE_COIL, WRITE_SINGLE_REGISTER,
    WRITE_MULTIPLE_COILS, WRITE_MULTIPLE_REGISTERS] at h1 h2
  omega

/-- C5. For every request byte stream accepted by the RTU framer: the first
7 bytes are read and unpacked; a static-length function code (`REQ_STATIC`,
the six single-value data functions) makes the framer read exactly 1 more
byte for a total frame of exactly 8 bytes; a dynamic code
(`WRITE_MULTIPLE_COILS`, `WRITE_MULTIPLE_REGISTERS`) makes it read exactly
`byte_count + 2` more bytes (here `byte_count` is byte 6 of the stream);
any other code makes it read exactly 1 more byte (with a logged warning). -/
theorem rtu_read_request_frame_spec (s frame rest : List Byte)
    (h : RTUProtocol.read_request_frame s = some (frame, rest)) :
    7 ≤ s.length ∧
    (s.getD 1 0 ∈ RTUProtocol.REQ_STATIC →
      frame = s.take 8 ∧ rest = s.drop 8 ∧ frame.length = 8) ∧
    (s.getD 1 0 ∈ RTUProtocol.REQ_DYNAMIC →
      frame = s.take (7 + (s.getD 6 0 + 2)) ∧ rest = s.drop (7 + (s.getD 6 0 + 2)) ∧
      frame.length = 7 + (s.getD 6 0 + 2)) ∧
    (s.getD 1 0 ∉ RTUProtocol.REQ_STATIC → s.getD 1 0 ∉ RTUProtocol.REQ_DYNAMIC →
      frame = s.take 8 ∧ rest = s.drop 8 ∧ frame.length = 8) := by
  unfold RTUProtocol.read_request_frame at h
  rcases h7 : readExactly 7 s with - | ⟨payload, s1⟩ <;> rw [h7] at h <;> dsimp only at h
  · cases h
  obtain ⟨hlen7, rfl, rfl⟩ := readExactly_eq_some.mp h7
  have g1 : (List.take 7 s).getD 1 0 = s.getD 1 0 := getD_take_of_lt (by norm_num)
  have g6 : (List.take 7 s).getD 6 0 = s.getD 6 0 := getD_take_of_lt (by norm_num)
  rw [g1, g6] at h
  by_cases hst : s.getD 1 0 ∈ RTUProtocol.REQ_STATIC
  · rw [if_pos hst] at h
    rcases h2 : readExactly 1 (List.drop 7 s) with - | ⟨tail, s2⟩ <;> rw [h2] at h <;>
      dsimp only at h
    · cases h
    obtain ⟨hlen1, rfl, rfl⟩ := readExactly_eq_some.mp h2
    cases h
    obtain ⟨hfr, hrs, hle⟩ := chunk_shape hlen7 hlen1
    refine ⟨hlen7, fun _ => ⟨hfr, hrs, ?_⟩,
      fun hdy => (req_static_dynamic_disjoint hst hdy).elim,
      fun hns _ => (hns hst).elim⟩
    rw [hfr]
    exact length_take_of_le hle
  · rw [if_neg hst] at h
    by_cases hdy : s.getD 1 0 ∈ RTUProtocol.REQ_DYNAMIC
    · rw [if_pos hdy] at h
      rcases h2 : readExactly (s.getD 6 0 + 2) (List.drop 7 s) with - | ⟨tail, s2⟩ <;>
        rw [h2] at h <;> dsimp only at h
      · cases h
      obtain ⟨hlen2, rfl, rfl⟩ := readExactly_eq_some.mp h2
      cases h
      obtain ⟨hfr, hrs, hle⟩ := chunk_shape hlen7 hlen2
      refine ⟨hlen7, fun hst2 => (hst hst2).elim, fun _ => ⟨hfr, hrs, ?_⟩,
        fun _ hdy2 => (hdy2 hdy).elim⟩
      rw [hfr]
      exact length_take_of_le hle
    · rw [if_neg hdy] at h
      rcases h2 : readExactly 1 (List.drop 7 s) with - | ⟨tail, s2⟩ <;> rw [h2] at h <;>
        dsimp only at h
      · cases h
      obtain ⟨hlen1, rfl, rfl⟩ := readExactly_eq_some.mp h2
      cases h
      obtain ⟨hfr, hrs, hle⟩ := chunk_shape hlen7 hlen1
      refine ⟨hlen7, fun hst2 => (hst hst2).elim, fun hdy2 => (hdy hdy2).elim,
        fun _ _ => ⟨hfr, hrs, ?_⟩⟩
      rw [hfr]
      exact length_take_of_le hle

/-- Witness for C5 on the spec's S6 RTU request
`01 03 00 01 00 04 15 c9` (READ_HOLDING_REGISTERS, a static-length
function): exactly the 8 bytes form the frame. -/
theorem rtu_read_request_frame_spec_witness :
    RTUProtocol.read_request_frame
        [0x01, 0x03, 0x00, 0x01, 0x00, 0x04, 0x15, 0xc9] =
      some ([0x01, 0x03, 0x00, 0x01, 0x00, 0x04, 0x15, 0xc9], []) ∧
    ([0x01, 0x03, 0x00, 0x01, 0x00, 0x04, 0x15, 0xc9] : List Byte).getD 1 0 ∈
      RTUProtocol.REQ_STATIC ∧
    ([0x01, 0x03, 0x00, 0x01, 0x00, 0x04, 0x15, 0xc9] : List Byte) =
      ([0x01, 0x03, 0x00, 0x01, 0x00, 0x04, 0x15, 0xc9] : List Byte).take 8 := by
  have h := rtu_read_request_frame_spec
    [0x01, 0x03, 0x00, 0x01, 0x00, 0x04, 0x15, 0xc9]
    [0x01, 0x03, 0x00, 0x01, 0x00, 0x04, 0x15, 0xc9]
    [] (by decide)
  exact ⟨by decide, by decide, (h.2.1 (by decide)).1⟩

theorem resp_static_dynamic_disjoint {f : Nat}
    (h1 : f ∈ RTUProtocol.RESP_STATIC) (h2 : f ∈ RTUProtocol.RESP_DYNAMIC) : False := by
  simp [RTUProtocol.RESP_STATIC, RTUProtocol.RESP_DYNAMIC, READ_COILS, READ_DISCRETE_INPUTS,
    READ_HOLDING_REGISTERS, READ_INPUT_REGISTERS, WRITE_SINGLE_COIL, WRITE_SINGLE_REGISTER,
    WRITE_MULTIPLE_COILS, WRITE_MULTIPLE_REGISTERS] at h1 h2
  omega

/-- C6. For every response byte stream accepted by the RTU framer: the first
2 bytes (`address, func`) are read, then: a static write response
(`RESP_STATIC`) reads exactly `4 + 2` more bytes (total 8); a variable read
response (`RESP_DYNAMIC`) reads 1 more byte `N` and then exactly `N + 2`
more (total `3 + N + 2`); an exception response (`func &&& 0x80 ≠ 0`) reads
exactly `1 + 2` more, so the whole exception frame is 5 bytes; any other
code reads exactly 2 more bytes, the CRC only, with a logged warning. -/
theorem rtu_read_response_frame_spec (s frame rest : List Byte)
    (h : RTUProtocol.read_response_frame s = some (frame, rest)) :
    2 ≤ s.length ∧
    (s.getD 1 0 ∈ RTUProtocol.RESP_STATIC →
      frame = s.take 8 ∧ rest = s.drop 8 ∧ frame.length = 8) ∧
    (s.getD 1 0 ∈ RTUProtocol.RESP_DYNAMIC →
      frame = s.take (3 + (s.getD 2 0 + 2)) ∧ rest = s.drop (3 + (s.getD 2 0 + 2)) ∧
      frame.length = 3 + (s.getD 2 0 + 2)) ∧
    (s.getD 1 0 ∉ RTUProtocol.RESP_STATIC → s.getD 1 0 ∉ RTUProtocol.RESP_DYNAMIC →
      s.getD 1 0 &&& 0x80 ≠ 0 →
      frame = s.take 5 ∧ rest = s.drop 5 ∧ frame.length = 5) ∧
    (s.getD 1 0 ∉ RTUProtocol.RESP_STATIC → s.getD 1 0 ∉ RTUProtocol.RESP_DYNAMIC →
      s.getD 1 0 &&& 0x80 = 0 →
      frame = s.take 4 ∧ rest = s.drop 4 ∧ frame.length = 4) := by
  unfold RTUProtocol.read_response_frame at h
  rcases h2 : readExactly 2 s with - | ⟨payload, s1⟩ <;> rw [h2] at h <;> dsimp only at h
  · cases h
  obtain ⟨hlen2, rfl, rfl⟩ := readExactly_eq_some.mp h2
  have g1 : (List.take 2 s).getD 1 0 = s.getD 1 0 := getD_take_of_lt (by norm_num)
  rw [g1] at h
  by_cases hst : s.getD 1 0 ∈ RTUProtocol.RESP_STATIC
  · rw [if_pos hst] at h
    rcases hb : readExactly (4 + 2) (List.drop 2 s) with - | ⟨tail, s2⟩ <;> rw [hb] at h <;>
      dsimp only at h
    · cases h
    obtain ⟨hlenb, rfl, rfl⟩ := readExactly_eq_some.mp hb
    cases h
    obtain ⟨hfr, hrs, hle⟩ := chunk_shape hlen2 hlenb
    refine ⟨hlen2, fun _ => ⟨hfr, hrs, ?_⟩,
      fun hdy => (resp_static_dynamic_disjoint hst hdy).elim,
      fun hns _ _ => (hns hst).elim, fun hns _ _ => (hns hst).elim⟩
    rw [hfr]
    exact length_take_of_le hle
  · rw [if_neg hst] at h
    by_cases hdy : s.getD 1 0 ∈ RTUProtocol.RESP_DYNAMIC
    · rw [if_pos hdy] at h
      rcases hb : readExactly 1 (List.drop 2 s) with - | ⟨endB, s2⟩ <;> rw [hb] at h <;>
        dsimp only at h
      · cases h
      obtain ⟨hlen1, rfl, rfl⟩ := readExactly_eq_some.mp hb
      have e2 : ((List.drop 2 s).take 1).getD 0 0 = s.getD 2 0 := by
        rw [getD_take_of_lt (by norm_num), getD_drop]
      rw [e2] at h
      rcases hc : readExactly (s.getD 2 0 + 2) ((List.drop 2 s).drop 1) with - | ⟨tail, s3⟩ <;>
        rw [hc] at h <;> dsimp only at h
      · cases h
      obtain ⟨hlenc, rfl, rfl⟩ := readExactly_eq_some.mp hc
      cases h
      obtain ⟨hfr1, hrs1, hle1⟩ := chunk_shape hlen2 hlen1
      rw [hrs1] at hlenc
      obtain ⟨hfr2, hrs2, hle2⟩ := chunk_shape (show 3 ≤ s.length from hle1) hlenc
      have hfr : (List.take 2 s ++ (List.drop 2 s).take 1) ++
          ((List.drop 2 s).drop 1).take (s.getD 2 0 + 2) =
          s.take (3 + (s.getD 2 0 + 2)) := by
        rw [hfr1, hrs1]
        exact hfr2
      have hrs : ((List.drop 2 s).drop 1).drop (s.getD 2 0 + 2) =
          s.drop (3 + (s.getD 2 0 + 2)) := by
        rw [hrs1]
        exact hrs2
      refine ⟨hlen2, fun hst2 => (hst hst2).elim, fun _ => ⟨hfr, hrs, ?_⟩,
        fun _ hdy2 _ => (hdy2 hdy).elim, fun _ hdy2 _ => (hdy2 hdy).elim⟩
      rw [hfr]
      exact length_take_of_le hle2
    · rw [if_neg hdy] at h
      by_cases herr : s.getD 1 0 &&& 0x80 ≠ 0
      · rw [if_pos herr] at h
        rcases hb : readExactly (1 + 2) (List.drop 2 s) with - | ⟨tail, s2⟩ <;> rw [hb] at h <;>
          dsimp only at h
        · cases h
        obtain ⟨hlenb, rfl, rfl⟩ := readExactly_eq_some.mp hb
        cases h
        obtain ⟨hfr, hrs, hle⟩ := chunk_shape hlen2 hlenb
        refine ⟨hlen2, fun hst2 => (hst hst2).elim, fun hdy2 => (hdy hdy2).elim,
          fun _ _ _ => ⟨hfr, hrs, ?_⟩, fun _ _ hz => (herr hz).elim⟩
        rw [hfr]
        exact length_take_of_le hle
      · rw [if_neg herr] at h
        rcases hb : readExactly (0 + 2) (List.drop 2 s) with - | ⟨tail, s2⟩ <;> rw [hb] at h <;>
          dsimp only at h
        · cases h
        obtain ⟨hlenb, rfl, rfl⟩ := readExactly_eq_some.mp hb
        cases h
        obtain ⟨hfr, hrs, hle⟩ := chunk_shape hlen2 hlenb
        refine ⟨hlen2, fun hst2 => (hst hst2).elim, fun hdy2 => (hdy hdy2).elim,
          fun _ _ hnz => (herr hnz).elim, fun _ _ _ => ⟨hfr, hrs, ?_⟩⟩
        rw [hfr]
        exact length_take_of_le hle

/-- Witness for C6 on the spec's S6 RTU response
`01 03 08 00 01 00 02 00 03 00 04 0d 14` (a variable-length read response
with `N = 8`, 13 bytes in all) and on the 5-byte exception response
`01 83 02 c0 f1`. -/
theorem rtu_read_response_frame_spec_witness :
    RTUProtocol.read_response_frame
        [0x01, 0x03, 0x08, 0x00, 0x01, 0x00, 0x02, 0x00, 0x03, 0x00, 0x04, 0x0d, 0x14] =
      some ([0x01, 0x03, 0x08, 0x00, 0x01, 0x00, 0x02, 0x00, 0x03, 0x00, 0x04, 0x0d, 0x14], []) ∧
    ([0x01, 0x03, 0x08, 0x00, 0x01, 0x00, 0x02, 0x00, 0x03, 0x00, 0x04, 0x0d, 0x14] :
      List Byte).length = 3 + (0x08 + 2) ∧
    (∃ frame rest, RTUProtocol.read_response_frame [0x01, 0x83, 0x02, 0xc0, 0xf1] =
      some (frame, rest) ∧ frame.length = 5) := by
  have h := rtu_read_response_frame_spec
    [0x01, 0x03, 0x08, 0x00, 0x01, 0x00, 0x02, 0x00, 0x03, 0x00, 0x04, 0x0d, 0x14]
    [0x01, 0x03, 0x08, 0x00, 0x01, 0x00, 0x02, 0x00, 0x03, 0x00, 0x04, 0x0d, 0x14]
    [] (by decide)
  have h5 := rtu_read_response_frame_spec [0x01, 0x83, 0x02, 0xc0, 0xf1]
    [0x01, 0x83, 0x02, 0xc0, 0xf1] [] (by decide)
  refine ⟨by decide, ?_, ⟨[0x01, 0x83, 0x02, 0xc0, 0xf1], [], by decide, ?_⟩⟩
  · exact (h.2.2.1 (by decide)).2.2
  · exact (h5.2.2.2.1 (by decide) (by decide) (by decide)).2.2

theorem splitSep_tcp_prefix (l : List Char) :
    splitSep ('t' :: 'c' :: 'p' :: ':' :: '/' :: '/' :: l) = some (['t', 'c', 'p'], l) := by
  rfl

theorem schemeOf_noSep (url : String) (h : hasSep url = false) : schemeOf url = "tcp" := by
  unfold schemeOf parse_url_str
  rw [h]
  simp only [Bool.false_eq_true, if_false]
  have hd : ("tcp://" ++ url).data = 't' :: 'c' :: 'p' :: ':' :: '/' :: '/' :: url.data := rfl
  rw [hd, splitSep_tcp_prefix]

theorem transport_protocol_for_url_noSep (url : String) (h : hasSep url = false) :
    transport_protocol_for_url url = ("tcp", "tcp") := by
  simp only [transport_protocol_for_url]
  rw [schemeOf_noSep url h]
  rfl

/-- C8. The scheme decomposition of `transport_protocol_for_url`: a URL
without `"://"` is treated as if `"tcp://"` were prepended (hence a bare
`host:port` yields `(tcp, tcp)`); scheme `tcp` yields `(tcp, tcp)`,
`tcp+rtu` yields `(tcp, rtu)`, `serial` yields `(serial, rtu)`, `rfc2217`
yields `(rfc2217, rtu)`, `serial+tcp` yields `(serial, tcp)`, and
`serial+tcp+rtu` yields `(serial+tcp, rtu)`, for every remainder of the
URL after the separator. -/
theorem transport_protocol_for_url_spec :
    (∀ url : String, hasSep url = false →
        transport_protocol_for_url url = transport_protocol_for_url ("tcp://" ++ url) ∧
        transport_protocol_for_url url = ("tcp", "tcp")) ∧
    (∀ r : String, transport_protocol_for_url ("tcp://" ++ r) = ("tcp", "tcp")) ∧
    (∀ r : String, transport_protocol_for_url ("tcp+rtu://" ++ r) = ("tcp", "rtu")) ∧
    (∀ r : String, transport_protocol_for_url ("serial://" ++ r) = ("serial", "rtu")) ∧
    (∀ r : String, transport_protocol_for_url ("rfc2217://" ++ r) = ("rfc2217", "rtu")) ∧
    (∀ r : String, transport_protocol_for_url ("serial+tcp://" ++ r) = ("serial", "tcp")) ∧
    (∀ r : String,
        transport_protocol_for_url ("serial+tcp+rtu://" ++ r) = ("serial+tcp", "rtu")) := by
  have htcp : ∀ r : String, transport_protocol_for_url ("tcp://" ++ r) = ("tcp", "tcp") :=
    fun _ => rfl
  refine ⟨?_, htcp, ?_, ?_, ?_, ?_, ?_⟩
  · intro url hurl
    exact ⟨by rw [transport_protocol_for_url_noSep url hurl, htcp url],
      transport_protocol_for_url_noSep url hurl⟩
  all_goals intro r
  all_goals rfl

/-- Witness for C8 at the test suite's inputs: `localhost:502` (no
separator, hence `(tcp, tcp)`) and `serial+tcp+rtu:///dev/ttyS0`. -/
theorem transport_protocol_for_url_spec_witness :
    hasSep "localhost:502" = false ∧
    transport_protocol_for_url "localhost:502" = ("tcp", "tcp") ∧
    transport_protocol_for_url "serial+tcp+rtu:///dev/ttyS0" = ("serial+tcp", "rtu") := by
  refine ⟨by decide,
    (transport_protocol_for_url_spec.1 "localhost:502" (by decide)).2, ?_⟩
  exact transport_protocol_for_url_spec.2.2.2.2.2.2 "/dev/ttyS0"

/-- C9. The listen port defaults to 502 exactly when the bind address
gives no port; an explicitly given port, including `0`, is used as given;
and a bind whose port text does not convert (`h:abc`, and `h:1:2`, whose
port text after the first-colon partition is `1:2`) or converts out of
range (`h:70000`) makes `bind.port` — hence `Bridge.__init__` — raise
`ValueError` rather than default or misparse. -/
theorem bridge_port_spec :
    (∀ bind : String, portOf bind = Except.ok none → Bridge.port bind = Except.ok 502) ∧
    (∀ (bind : String) (p : Nat),
      portOf bind = Except.ok (some p) → Bridge.port bind = Except.ok p) ∧
    (∀ (bind e : String),
      portOf bind = Except.error e → Bridge.port bind = Except.error e) ∧
    portOf "localhost" = Except.ok none ∧
    portOf ":0" = Except.ok (some 0) ∧
    Bridge.port "localhost" = Except.ok 502 ∧
    Bridge.port ":0" = Except.ok 0 ∧
    portOf "h:abc" = Except.error "ValueError: Port could not be cast to integer" ∧
    portOf "h:1:2" = Except.error "ValueError: Port could not be cast to integer" ∧
    portOf "h:70000" = Except.error "ValueError: Port out of range 0-65535" ∧
    portOf "h:65535" = Except.ok (some 65535) ∧
    portOf "h:9_0" = Except.error "ValueError: Port could not be cast to integer" ∧
    portOf "h:+9" = Except.error "ValueError: Port could not be cast to integer" := by
  refine ⟨?_, ?_, ?_, rfl, rfl, rfl, rfl, rfl, rfl, rfl, rfl, rfl, rfl⟩
  · intro bind h
    unfold Bridge.port
    rw [h]
  · intro bind p h
    unfold Bridge.port
    rw [h]
  · intro bind e h
    unfold Bridge.port
    rw [h]

/-- Witness for C9: the default at portless binds, the explicit port 0 at
`"0:0"` (an OS-assigned ephemeral port), an ordinary explicit port, and a
propagated `ValueError` on a multi-colon netloc. -/
theorem bridge_port_spec_witness :
    Bridge.port "0" = Except.ok 502 ∧
    Bridge.port "0:0" = Except.ok 0 ∧
    Bridge.port "0:9000" = Except.ok 9000 ∧
    Bridge.port "h:1:2" = Except.error "ValueError: Port could not be cast to integer" := by
  exact ⟨bridge_port_spec.1 "0" rfl,
    bridge_port_spec.2.1 "0:0" 0 rfl,
    bridge_port_spec.2.1 "0:9000" 9000 rfl,
    bridge_port_spec.2.2.1 "h:1:2" "ValueError: Port could not be cast to integer" rfl⟩

/-- Counterexample to C10 at a concrete reachable state: start a bridge
with one bound socket, then `stop()` — `self.server` still holds the
closed server, `server.sockets` is the empty tuple, so reading `address`
evaluates `self.server.sockets[0]` and raises `IndexError`; reading
`address` is therefore not raise-free after a successful `start()`. -/
theorem bridge_address_never_raises_counterexample :
    Bridge.address (Bridge.stop (Bridge.start Bridge.initState
        { sockets := [{ sockname := "127.0.0.1:9000" }] })) =
      Except.error "IndexError" := by
  rfl

/-- C10 amended: `address` returns `None` before `start()` (the `server`
field is `None` after construction); after a successful `start()` that
has not been followed by `stop()` it returns the bound address of the
listener's first socket; but reading it is not raise-free: after `stop()`
the `server` field still holds the closed server, whose socket list is
empty, and `address` raises `IndexError`. -/
theorem bridge_address_amended_spec :
    Bridge.address Bridge.initState = Except.ok none ∧
    (∀ (b : BridgeState) (srv : Server) (sock : Socket) (rest : List Socket),
      srv.sockets = sock :: rest →
      Bridge.address (Bridge.start b srv) = Except.ok (some sock.sockname)) ∧
    (∀ (b : BridgeState) (srv : Server),
      Bridge.stop (Bridge.start b srv) =
        { server := some { sockets := [] } } ∧
      Bridge.address (Bridge.stop (Bridge.start b srv)) =
        Except.error "IndexError") := by
  refine ⟨rfl, ?_, ?_⟩
  · intro b srv sock rest h
    unfold Bridge.start Bridge.address
    dsimp only
    rw [h]
  · intro b srv
    exact ⟨rfl, rfl⟩

/-- Witness for the amended C10 at a concrete bridge: `None` after
construction, the bound address after `start()`, the `IndexError` after
`stop()`. -/
theorem bridge_address_amended_spec_witness :
    Bridge.address Bridge.initState = Except.ok none ∧
    Bridge.address (Bridge.start Bridge.initState
        { sockets := [{ sockname := "127.0.0.1:9000" }] }) =
      Except.ok (some "127.0.0.1:9000") ∧
    Bridge.address (Bridge.stop (Bridge.start Bridge.initState
        { sockets := [{ sockname := "127.0.0.1:9000" }] })) =
      Except.error "IndexError" := by
  exact ⟨bridge_address_amended_spec.1,
    bridge_address_amended_spec.2.1 Bridge.initState
      { sockets := [{ sockname := "127.0.0.1:9000" }] }
      { sockname := "127.0.0.1:9000" } [] rfl,
    (bridge_address_amended_spec.2.2 Bridge.initState
      { sockets := [{ sockname := "127.0.0.1:9000" }] }).2⟩

/-- C3. The retry discipline of the exchange: the default budget is 2; an
exception inside connect/write/read closes the link and, while budget
remains, the loop continues from the connect step on a closed link; an
exception on the final attempt propagates to the caller; and with a
positive budget the call never falls through to return `None`. -/
theorem write_read_retry_spec :
    (∀ (F E : Type) (env : ExchangeEnv F E) (st : ConnState),
      Bridge.write_read_response_frame env st = writeReadFrom env 2 0 st) ∧
    (∀ (F E : Type) (env : ExchangeEnv F E) (remaining i : Nat) (st : ConnState) (e : E),
      tryBody env i st = Except.error e → remaining ≠ 0 →
      writeReadFrom env (remaining + 1) i st =
        writeReadFrom env remaining (i + 1) ConnState.closed) ∧
    (∀ (F E : Type) (env : ExchangeEnv F E) (i : Nat) (st : ConnState) (e : E),
      tryBody env i st = Except.error e →
      writeReadFrom env 1 i st = (PyResult.raised e, ConnState.closed)) ∧
    (∀ (F E : Type) (env : ExchangeEnv F E) (remaining i : Nat) (st : ConnState),
      remaining ≠ 0 → (writeReadFrom env remaining i st).1 ≠ PyResult.noneResult) ∧
    (∀ (F E : Type) (env : ExchangeEnv F E) (i : Nat) (e : E),
      env.connect i = Except.error e →
      tryBody env i ConnState.closed = Except.error e) := by
  have hsucc : ∀ (F E : Type) (env : ExchangeEnv F E) (remaining i : Nat) (st : ConnState),
      writeReadFrom env (remaining + 1) i st =
        match tryBody env i st with
        | Except.ok f => (PyResult.frame f, ConnState.opened)
        | Except.error e =>
          if remaining = 0 then (PyResult.raised e, ConnState.closed)
          else writeReadFrom env remaining (i + 1) ConnState.closed :=
    fun _ _ _ _ _ _ => rfl
  refine ⟨fun _ _ _ _ => rfl, ?_, ?_, ?_, ?_⟩
  · intro F E env remaining i st e htry hrem
    rw [hsucc, htry]
    dsimp only
    rw [if_neg hrem]
  · intro F E env i st e htry
    show writeReadFrom env (0 + 1) i st = (PyResult.raised e, ConnState.closed)
    rw [hsucc, htry]
    rfl
  · intro F E env remaining
    induction remaining with
    | zero =>
      intro i st h
      exact absurd rfl h
    | succ m ih =>
      intro i st hne
      rcases htry : tryBody env i st with e | f
      · rw [hsucc, htry]
        dsimp only
        by_cases hm : m = 0
        · rw [if_pos hm]
          intro hco
          cases hco
        · rw [if_neg hm]
          exact ih (i + 1) ConnState.closed hm
      · rw [hsucc, htry]
        intro hco
        cases hco
  · intro F E env i e hco
    unfold tryBody
    rw [if_pos rfl, hco]

/-- Witness for C3 at `retryEnvExample`, starting closed: the first try
body fails with the connect refusal, the loop retries from the connect
step, and the budget-1 tail either returns the frame or raises; here the
whole default call returns frame `42`. -/
theorem write_read_retry_spec_witness :
    writeReadFrom retryEnvExample (1 + 1) 0 ConnState.closed =
      writeReadFrom retryEnvExample 1 1 ConnState.closed ∧
    (writeReadFrom retryEnvExample 2 0 ConnState.closed).1 ≠ PyResult.noneResult ∧
    tryBody retryEnvExample 0 ConnState.closed = Except.error "refused" ∧
    Bridge.write_read_response_frame retryEnvExample ConnState.closed =
      (PyResult.frame 42, ConnState.opened) := by
  refine ⟨write_read_retry_spec.2.1 Nat String retryEnvExample 1 0 ConnState.closed
      "refused" rfl (by decide),
    write_read_retry_spec.2.2.2.1 Nat String retryEnvExample 2 0 ConnState.closed (by decide),
    write_read_retry_spec.2.2.2.2 Nat String retryEnvExample 0 "refused" rfl, rfl⟩

theorem liftRead_written {f : List Byte → Option (List Byte × List Byte)}
    {t : Transport} {fr : List Byte} {t1 : Transport}
    (h : liftRead f t = some (fr, t1)) : t1.written = t.written := by
  unfold liftRead at h
  rcases hf : f t.stream with - | p <;> rw [hf] at h
  · rw [Option.map_none'] at h
    cases h
  · rw [Option.map_some'] at h
    cases h
    rfl

/-- What one successful `handle_client_message` does, in full: the request
frame read from the client goes to the upstream write log unchanged, and
the response frame read from the upstream stream goes to the client write
log unchanged. -/
theorem handle_client_message_spec {kc ku : ProtocolKind}
    {client upstream c2 u1 : Transport}
    (h : Bridge.handle_client_message kc ku client upstream = some (c2, u1)) :
    ∃ (req resp : List Byte) (crest urest : Transport),
      read_request_frameT kc client = some (req, crest) ∧
      read_response_frameT ku (upstream.write req) = some (resp, urest) ∧
      u1 = urest ∧ c2 = crest.write resp ∧
      u1.written = upstream.written ++ req ∧
      c2.written = client.written ++ resp := by
  unfold Bridge.handle_client_message at h
  rcases hr : read_request_frameT kc client with - | ⟨req, crest⟩ <;> rw [hr] at h <;>
    dsimp only at h
  · cases h
  unfold BaseProtocol.write_read_response_frame at h
  rcases hw : read_response_frameT ku (upstream.write req) with - | ⟨resp, urest⟩ <;>
    rw [hw] at h <;> dsimp only at h
  · cases h
  cases h
  have hcw : crest.written = client.written := liftRead_written hr
  refine ⟨req, resp, crest, _, rfl, hw, rfl, rfl, liftRead_written hw, ?_⟩
  show crest.written ++ resp = client.written ++ resp
  rw [hcw]

/-- C2. For every successful exchange, the byte sequence written to the
upstream transport equals the request frame read from the client,
unchanged, and the byte sequence written back to the client equals the
response frame read from the upstream device, unchanged — no rewriting of
transaction ids, unit ids, or CRCs. -/
theorem verbatim_bytes_spec (kc ku : ProtocolKind) (client upstream c2 u1 : Transport)
    (h : Bridge.handle_client_message kc ku client upstream = some (c2, u1)) :
    ∃ (req resp : List Byte) (crest urest : Transport),
      read_request_frameT kc client = some (req, crest) ∧
      read_response_frameT ku (upstream.write req) = some (resp, urest) ∧
      u1.written = upstream.written ++ req ∧
      c2.written = client.written ++ resp := by
  obtain ⟨req, resp, crest, urest, hr, hw, -, -, hu, hc⟩ := handle_client_message_spec h
  exact ⟨req, resp, crest, urest, hr, hw, hu, hc⟩

/-- Witness for C2 on the spec's S1 exchange: the upstream sees exactly the
client's 12 request bytes, the client gets exactly the device's 17
response bytes. -/
theorem verbatim_bytes_spec_witness :
    ∃ (req resp : List Byte) (crest urest : Transport),
      read_request_frameT ProtocolKind.tcp { stream := s1Request, written := [] } =
        some (req, crest) ∧
      read_response_frameT ProtocolKind.tcp
        (Transport.write { stream := s1Response, written := [] } req) = some (resp, urest) ∧
      ({ stream := ([] : List Byte), written := s1Request } : Transport).written = [] ++ req ∧
      ({ stream := ([] : List Byte), written := s1Response } : Transport).written =
        [] ++ resp := by
  exact verbatim_bytes_spec ProtocolKind.tcp ProtocolKind.tcp
    { stream := s1Request, written := [] } { stream := s1Response, written := [] }
    { stream := [], written := s1Response } { stream := [], written := s1Request }
    (by decide)

/-- Counterexample to C7 at the spec's own S6 input: with an RTU upstream,
`Bridge.handle_client` frames the TCP client with `RTUProtocol` too
(`type(self.protocol)`), so of the client's 12-byte MBAP frame
`6d f5 00 00 00 06 01 03 00 01 00 04` only the first 8 bytes are read as
one (malformed) RTU frame and written verbatim upstream — not the
translated RTU ADU `01 03 00 01 00 04 15 c9` the claim specifies. -/
theorem bridge_no_translation_counterexample :
    Bridge.handle_client_step ProtocolKind.rtu
        { stream := s1Request, written := [] }
        { stream := s6RtuResponse, written := [] } =
      some ({ stream := [0x00, 0x01, 0x00, 0x04], written := s6RtuResponse },
            { stream := [],
              written := [0x6d, 0xf5, 0x00, 0x00, 0x00, 0x06, 0x01, 0x03] }) ∧
    mbapToRtu s1Request = [0x01, 0x03, 0x00, 0x01, 0x00, 0x04, 0x15, 0xc9] ∧
    ([0x6d, 0xf5, 0x00, 0x00, 0x00, 0x06, 0x01, 0x03] : List Byte) ≠ mbapToRtu s1Request := by
  refine ⟨by decide, by decide, by decide⟩

/-- C7 amended: when the client-side and device-side framings differ, the
Bridge performs no MBAP/RTU translation; `Bridge.handle_client` frames the
client connection with the same protocol class as the upstream
(`protocol = type(self.protocol)(transport)`), and on every successful
exchange the frame read from the client — under that upstream framing — is
written verbatim to the upstream transport. -/
theorem bridge_no_translation_spec (ku : ProtocolKind) (client upstream c2 u1 : Transport)
    (h : Bridge.handle_client_step ku client upstream = some (c2, u1)) :
    Bridge.handle_client_step ku client upstream =
      Bridge.handle_client_message ku ku client upstream ∧
    ∃ (req : List Byte) (crest : Transport),
      read_request_frameT ku client = some (req, crest) ∧
      u1.written = upstream.written ++ req := by
  obtain ⟨req, resp, crest, urest, hr, -, -, -, hu, -⟩ := handle_client_message_spec h
  exact ⟨rfl, req, crest, hr, hu⟩

/-- Witness for the amended C7 at the S6 input: the 8 bytes read by the
RTU framer from the client's MBAP bytes are exactly what reaches the
upstream. -/
theorem bridge_no_translation_spec_witness :
    Bridge.handle_client_step ProtocolKind.rtu
        { stream := s1Request, written := [] }
        { stream := s6RtuResponse, written := [] } =
      Bridge.handle_client_message ProtocolKind.rtu ProtocolKind.rtu
        { stream := s1Request, written := [] }
        { stream := s6RtuResponse, written := [] } ∧
    ∃ (req : List Byte) (crest : Transport),
      read_request_frameT ProtocolKind.rtu { stream := s1Request, written := [] } =
        some (req, crest) ∧
      ({ stream := ([] : List Byte),
         written := [0x6d, 0xf5, 0x00, 0x00, 0x00, 0x06, 0x01, 0x03] } : Transport).written =
        [] ++ req := by
  exact bridge_no_translation_spec ProtocolKind.rtu
    { stream := s1Request, written := [] }
    { stream := s6RtuResponse, written := [] }
    { stream := [0x00, 0x01, 0x00, 0x04], written := s6RtuResponse }
    { stream := [], written := [0x6d, 0xf5, 0x00, 0x00, 0x00, 0x06, 0x01, 0x03] }
    (by decide)

theorem lockInv_init : lockInv initSys := by
  intro t h
  simp [initSys, inUpstream] at h

theorem lockInv_step {s s2 : LockSys} (h : lockInv s) (hs : LockStep s s2) : lockInv s2 := by
  cases hs with
  | acquire t hpc hlk =>
    intro u hu
    simp only [Function.update_apply] at hu ⊢
    by_cases he : u = t
    · rw [he]
    · rw [if_neg he] at hu
      rw [h u hu] at hlk
      cases hlk
  | connected t hpc =>
    intro u hu
    simp only [Function.update_apply] at hu
    by_cases he : u = t
    · rw [he]
      exact h t (Or.inl hpc)
    · rw [if_neg he] at hu
      exact h u hu
  | wrote t hpc =>
    intro u hu
    simp only [Function.update_apply] at hu
    by_cases he : u = t
    · rw [he]
      exact h t (Or.inr (Or.inl hpc))
    · rw [if_neg he] at hu
      exact h u hu
  | retry t p hpc hp =>
    intro u hu
    simp only [Function.update_apply] at hu
    by_cases he : u = t
    · rw [he]
      refine h t ?_
      rw [hpc]
      exact hp
    · rw [if_neg he] at hu
      exact h u hu
  | exitReturn t hpc =>
    intro u hu
    simp only [Function.update_apply] at hu
    by_cases he : u = t
    · rw [if_pos he] at hu
      simp [inUpstream] at hu
    · rw [if_neg he] at hu
      have h1 := h u hu
      have h2 := h t (Or.inr (Or.inr hpc))
      rw [h1] at h2
      cases h2
      exact absurd rfl he
  | exitRaise t p hpc hp =>
    intro u hu
    simp only [Function.update_apply] at hu
    by_cases he : u = t
    · rw [if_pos he] at hu
      simp [inUpstream] at hu
    · rw [if_neg he] at hu
      have h1 := h u hu
      have h2 := h t (by rw [hpc]; exact hp)
      rw [h1] at h2
      cases h2
      exact absurd rfl he

theorem lockInv_reachable {s : LockSys} (h : ReachableSys s) : lockInv s := by
  induction h with
  | init => exact lockInv_init
  | step _ hs ih => exact lockInv_step ih hs

/-- C1. At most one upstream transaction is outstanding per bridge at any
instant: in every reachable state of the lock transition system, two tasks
inside upstream I/O (connect, write or read of an exchange) are the same
task — the lock is taken before the connect/write/read and released only
after the response frame has been read or the exchange failed for good. -/
theorem upstream_mutual_exclusion (s : LockSys) (h : ReachableSys s) (t1 t2 : Nat)
    (h1 : inUpstream (s.pc t1)) (h2 : inUpstream (s.pc t2)) : t1 = t2 := by
  have hi := lockInv_reachable h
  have e1 := hi t1 h1
  have e2 := hi t2 h2
  rw [e1] at e2
  cases e2
  rfl

/-- Witness for C1 at `sysOneHolder`, reached by one `acquire` step from
the initial state. -/
theorem upstream_mutual_exclusion_witness :
    ReachableSys sysOneHolder ∧ inUpstream (sysOneHolder.pc 0) ∧ (0 : Nat) = 0 := by
  have hr : ReachableSys sysOneHolder :=
    ReachableSys.step ReachableSys.init (LockStep.acquire initSys 0 rfl rfl)
  have hup : inUpstream (sysOneHolder.pc 0) := by
    simp [sysOneHolder, inUpstream, Function.update_apply]
  exact ⟨hr, hup, upstream_mutual_exclusion sysOneHolder hr 0 0 hup hup⟩

end ModbusProxy

